import Mathlib

/-!
Verification development for the MerchantComparison repository.

The repository ingests XML sitemaps, extracts a normalized merchant domain
from each URL by an ordered rule cascade (`src/sitemapParser.ts`), and
computes set-overlap statistics between a reference domain set and named
competitor sets (`src/comparison.ts`).

This file is a shallow embedding of that code: JS `Set<string>` becomes
`Finset String`, `Map<string, Set<string>>` becomes an association list in
map-iteration (insertion) order, JS numbers on the values that occur here
(set cardinalities and their exact quotients) become `ℚ`, and JS strings
become Lean `String`s (operated on through their character lists).
-/

namespace MerchantComparison

/-- Embedding of the `CompetitorOverlap` interface from `src/types.ts`. -/
structure CompetitorOverlap where
  competitorName : String
  totalDomains : ℕ
  overlappingDomains : ℕ
  overlapPercentage : ℚ
  deriving DecidableEq, Repr

/-- JS `Math.round`: rounds to the nearest integer, halves toward `+∞`,
i.e. `⌊x + 1/2⌋` (stated via the executable `Rat.floor`). -/
def jsRound (q : ℚ) : ℤ := (q + 1/2).floor

theorem jsRound_eq_floor (q : ℚ) : jsRound q = ⌊q + 1/2⌋ :=
  (Rat.floor_def' _).trans Rat.floor_def.symm

/-- Rounding a rational to two decimal places in the JS style
(`Math.round(x * 100) / 100`), as the spec's `round(·, 2 decimal places)`. -/
def round2 (q : ℚ) : ℚ := (jsRound (q * 100) : ℚ) / 100

/-- Embedding of `calculateOverlap` from `src/comparison.ts`: the loop over
`sourceSet` testing `targetSet.has` builds exactly the intersection
`sourceSet ∩ targetSet`; the percentage is `overlap/total * 100` (or `0`
for an empty target) rounded to two decimal places. -/
def calculateOverlap (sourceSet targetSet : Finset String) : CompetitorOverlap :=
  let overlap : Finset String := sourceSet ∩ targetSet
  let overlapPercentage : ℚ :=
    if targetSet.card > 0 then ((overlap.card : ℚ) / (targetSet.card : ℚ)) * 100 else 0
  { competitorName := "unknown"
    totalDomains := targetSet.card
    overlappingDomains := overlap.card
    overlapPercentage := (jsRound (overlapPercentage * 100) : ℚ) / 100 }

/-- The comparator passed to `Array.prototype.sort` in
`compareAllCompetitors` (`src/comparison.ts`), returning a signed number. -/
def overlapCompare (a b : CompetitorOverlap) : ℚ :=
  if a.totalDomains = 0 ∧ b.totalDomains = 0 then 0
  else if a.totalDomains = 0 then 1
  else if b.totalDomains = 0 then -1
  else b.overlapPercentage - a.overlapPercentage

/-- The non-strict order induced by the comparator: `a` may stay before `b`
exactly when `overlapCompare a b ≤ 0`. -/
def overlapLe (a b : CompetitorOverlap) : Bool := decide (overlapCompare a b ≤ 0)

/-- Embedding of `compareAllCompetitors` from `src/comparison.ts`. JS
`Array.prototype.sort` is required to be a stable sort, and the comparator
above induces a total preorder, so the call is modelled by a stable merge
sort with respect to `overlapLe`. -/
def compareAllCompetitors (dealsptrDomains : Finset String)
    (competitorMap : List (String × Finset String)) : List CompetitorOverlap :=
  (competitorMap.map fun p =>
    { calculateOverlap dealsptrDomains p.2 with competitorName := p.1 }).mergeSort overlapLe

theorem overlapLe_trans (a b c : CompetitorOverlap) :
    overlapLe a b → overlapLe b c → overlapLe a c := by
  simp only [overlapLe, overlapCompare, decide_eq_true_eq]
  by_cases ha : a.totalDomains = 0 <;> by_cases hb : b.totalDomains = 0 <;>
    by_cases hc : c.totalDomains = 0 <;> simp [ha, hb, hc] <;> intros <;> linarith

theorem overlapLe_total (a b : CompetitorOverlap) :
    overlapLe a b || overlapLe b a := by
  simp only [overlapLe, overlapCompare, Bool.or_eq_true, decide_eq_true_eq]
  by_cases ha : a.totalDomains = 0 <;> by_cases hb : b.totalDomains = 0 <;>
    simp [ha, hb]
  exact le_total _ _

theorem overlapLe_imp {a b : CompetitorOverlap} (h : overlapLe a b) :
    (a.totalDomains = 0 → b.totalDomains = 0) ∧
    (a.totalDomains ≠ 0 → b.totalDomains ≠ 0 →
      b.overlapPercentage ≤ a.overlapPercentage) := by
  simp only [overlapLe, overlapCompare, decide_eq_true_eq] at h
  constructor
  · intro ha
    by_contra hb
    simp only [ha, hb, and_false, if_false, if_true, and_true] at h
    norm_num at h
  · intro ha hb
    simp only [ha, hb, and_self, if_false, false_and] at h
    linarith

/-- C1: `calculateOverlap A B` reports `overlappingDomains = |A ∩ B|`,
`totalDomains = |B|`, and `overlapPercentage` equal to
`round((overlappingDomains / totalDomains) * 100, 2dp)` when
`totalDomains > 0` and `0` when `B` is empty; moreover
`0 ≤ overlappingDomains ≤ totalDomains` (the lower bound holds since the
count lives in `ℕ`). -/
theorem calculateOverlap_spec (A B : Finset String) :
    (calculateOverlap A B).overlappingDomains = (A ∩ B).card ∧
    (calculateOverlap A B).totalDomains = B.card ∧
    (0 < B.card →
      (calculateOverlap A B).overlapPercentage =
        round2 ((((A ∩ B).card : ℚ) / (B.card : ℚ)) * 100)) ∧
    (B = ∅ → (calculateOverlap A B).overlapPercentage = 0) ∧
    (calculateOverlap A B).overlappingDomains ≤ (calculateOverlap A B).totalDomains := by
  refine ⟨rfl, rfl, ?_, ?_, ?_⟩
  · intro h
    simp only [calculateOverlap, round2, gt_iff_lt, h, if_true]
  · intro h
    subst h
    simp only [calculateOverlap, Finset.inter_empty, Finset.card_empty, gt_iff_lt,
      lt_irrefl, if_false]
    norm_num [jsRound, Rat.floor_def']
  · exact Finset.card_le_card Finset.inter_subset_right

theorem calculateOverlap_spec_witness :
    0 < ({"b.com", "c.com", "d.com"} : Finset String).card ∧
    (calculateOverlap {"a.com", "b.com", "c.com"}
        {"b.com", "c.com", "d.com"}).overlapPercentage =
      round2 (((({"a.com", "b.com", "c.com"} : Finset String) ∩
          {"b.com", "c.com", "d.com"}).card : ℚ) /
        (({"b.com", "c.com", "d.com"} : Finset String).card : ℚ) * 100) :=
  ⟨by decide, (calculateOverlap_spec _ _).2.2.1 (by decide)⟩

/-- C10: the result of `calculateOverlap` alone always carries the
placeholder `competitorName = "unknown"`; every entry of the
`compareAllCompetitors` output is such a result with the name overwritten
by the key of the map entry it was computed from. -/
theorem calculateOverlap_name_unknown :
    (∀ A B : Finset String, (calculateOverlap A B).competitorName = "unknown") ∧
    (∀ (ref : Finset String) (comps : List (String × Finset String))
        (r : CompetitorOverlap), r ∈ compareAllCompetitors ref comps →
      ∃ p ∈ comps, r = { calculateOverlap ref p.2 with competitorName := p.1 }) := by
  refine ⟨fun A B => rfl, fun ref comps r hr => ?_⟩
  have h := (List.mergeSort_perm (comps.map fun p =>
      { calculateOverlap ref p.2 with competitorName := p.1 }) overlapLe).mem_iff.mp hr
  rcases List.mem_map.mp h with ⟨p, hp, rfl⟩
  exact ⟨p, hp, rfl⟩

theorem calculateOverlap_name_unknown_witness :
    ∃ p ∈ [("acme", ({"m.com"} : Finset String))],
      ({ competitorName := "acme", totalDomains := 1, overlappingDomains := 0,
         overlapPercentage := 0 } : CompetitorOverlap) =
        { calculateOverlap ∅ p.2 with competitorName := p.1 } :=
  calculateOverlap_name_unknown.2 ∅ [("acme", {"m.com"})] _
    ((List.mergeSort_perm _ overlapLe).mem_iff.mpr
      (List.mem_singleton.mpr (by with_unfolding_all rfl)))

/-- C9: `compareAllCompetitors` returns exactly one result per map entry
(the output is a permutation of the entry-wise results, so its length is
the map's size), and each result's `competitorName` is the key of the
entry it was computed from. -/
theorem compareAllCompetitors_one_per_entry (ref : Finset String)
    (comps : List (String × Finset String)) :
    (compareAllCompetitors ref comps).length = comps.length ∧
    (compareAllCompetitors ref comps).Perm
      (comps.map fun p => { calculateOverlap ref p.2 with competitorName := p.1 }) ∧
    ((compareAllCompetitors ref comps).map (fun r => r.competitorName)).Perm
      (comps.map fun p => p.1) := by
  have hperm := List.mergeSort_perm (comps.map fun p =>
      { calculateOverlap ref p.2 with competitorName := p.1 }) overlapLe
  refine ⟨?_, hperm, ?_⟩
  · simpa [compareAllCompetitors] using hperm.length_eq
  · simpa [List.map_map, Function.comp_def] using hperm.map fun r => r.competitorName

/-- C2: the `compareAllCompetitors` output is sorted so that every entry
with `totalDomains = 0` comes strictly after every entry with
`totalDomains > 0`, percentages are non-increasing among the entries with
`totalDomains > 0`, and exact ties (entries the comparator does not
separate) keep their map-iteration order, as a stable sort does; the
function is deterministic by construction. -/
theorem compareAllCompetitors_sorted (ref : Finset String)
    (comps : List (String × Finset String)) :
    ((compareAllCompetitors ref comps).Pairwise fun a b =>
      (a.totalDomains = 0 → b.totalDomains = 0) ∧
      (a.totalDomains ≠ 0 → b.totalDomains ≠ 0 →
        b.overlapPercentage ≤ a.overlapPercentage)) ∧
    (∀ a b : CompetitorOverlap, overlapLe a b →
      List.Sublist [a, b] (comps.map fun p =>
        { calculateOverlap ref p.2 with competitorName := p.1 }) →
      List.Sublist [a, b] (compareAllCompetitors ref comps)) := by
  constructor
  · exact (List.sorted_mergeSort overlapLe_trans overlapLe_total
      (comps.map fun p => { calculateOverlap ref p.2 with competitorName := p.1 })).imp
      fun h => overlapLe_imp h
  · intro a b hab hsub
    exact List.pair_sublist_mergeSort overlapLe_trans overlapLe_total hab hsub

theorem compareAllCompetitors_sorted_witness :
    List.Sublist
      [({ competitorName := "x", totalDomains := 1, overlappingDomains := 1,
          overlapPercentage := 100 } : CompetitorOverlap),
       { competitorName := "y", totalDomains := 1, overlappingDomains := 1,
          overlapPercentage := 100 }]
      (compareAllCompetitors {"d.com"} [("x", {"d.com"}), ("y", {"d.com"})]) := by
  refine (compareAllCompetitors_sorted {"d.com"}
      [("x", {"d.com"}), ("y", {"d.com"})]).2 _ _ (by with_unfolding_all rfl) ?_
  have h : ([("x", ({"d.com"} : Finset String)), ("y", {"d.com"})].map fun p =>
      { calculateOverlap {"d.com"} p.2 with competitorName := p.1 }) =
      [{ competitorName := "x", totalDomains := 1, overlappingDomains := 1,
          overlapPercentage := 100 },
       { competitorName := "y", totalDomains := 1, overlappingDomains := 1,
          overlapPercentage := 100 }] := by
    with_unfolding_all rfl
  exact h ▸ List.Sublist.refl _

/-! ### Strings as character lists

JS strings are sequences of characters; the string operations the extractor
uses (`includes`, `split`, `replace` with an anchored pattern, the domain
regular expression) are modelled directly on `List Char`. -/

/-- `startsWithChars p l` holds when `p` is an initial run of `l`. -/
def startsWithChars : List Char → List Char → Bool
  | [], _ => true
  | _ :: _, [] => false
  | p :: ps, c :: cs => p == c && startsWithChars ps cs

/-- JS `String.prototype.includes`: `sub` occurs contiguously in `l`. -/
def hasSubstrChars (sub : List Char) : List Char → Bool
  | [] => sub.isEmpty
  | c :: cs => startsWithChars sub (c :: cs) || hasSubstrChars sub cs

/-- `hostname.includes(needle)` from the source. -/
def strIncludes (s needle : String) : Bool := hasSubstrChars needle.data s.data

/-- `url.includes(".")` from the source. -/
def hasDot (s : String) : Bool := s.data.contains '.'

/-- `pathname.split("/").filter((part) => part)`: split on `/` and keep the
non-empty (truthy) segments. -/
def pathSegments (pathname : String) : List String :=
  ((pathname.data.splitOn '/').map fun l => (⟨l⟩ : String)).filter fun s => !s.isEmpty

/-- `hostname.replace(/^www\./, "")`: strip one leading `www.`. -/
def stripWww (h : String) : String :=
  if startsWithChars "www.".data h.data then ⟨h.data.drop 4⟩ else h

/-! ### The domain regular expression

`/^[a-zA-Z0-9][-a-zA-Z0-9]*(\.[a-zA-Z0-9][-a-zA-Z0-9]*)+$/` — since `.` is
not in the label-body class, the greedy star never backtracks, so the test
is a deterministic scan: a label, then one or more `.`-label groups, then
end of string. -/

def isAsciiAlnum (c : Char) : Bool :=
  ('a' ≤ c && c ≤ 'z') || ('A' ≤ c && c ≤ 'Z') || ('0' ≤ c && c ≤ '9')

def isLabelBodyChar (c : Char) : Bool := c == '-' || isAsciiAlnum c

/-- States of the deterministic scan equivalent to the anchored regex:
inside the first label, right after a `.`, or inside a later label (at
least one `.`-group begun). The scan starts after the mandatory leading
alphanumeric has been consumed. -/
inductive RegexState where
  | firstLabel
  | afterDot
  | laterLabel
  deriving DecidableEq, Repr

/-- Transition function of that scan. `.` is not a label-body character,
so the greedy `[-a-zA-Z0-9]*` never backtracks and the regex denotes
exactly this automaton: accept iff the string ends inside a later label. -/
def domainStep : RegexState → List Char → Bool
  | .firstLabel, [] => false
  | .firstLabel, c :: cs =>
    if c == '.' then domainStep .afterDot cs
    else if isLabelBodyChar c then domainStep .firstLabel cs
    else false
  | .afterDot, [] => false
  | .afterDot, c :: cs => if isAsciiAlnum c then domainStep .laterLabel cs else false
  | .laterLabel, [] => true
  | .laterLabel, c :: cs =>
    if c == '.' then domainStep .afterDot cs
    else if isLabelBodyChar c then domainStep .laterLabel cs
    else false

/-- The full-anchor test `domainRegex.test(part)` for
`/^[a-zA-Z0-9][-a-zA-Z0-9]*(\.[a-zA-Z0-9][-a-zA-Z0-9]*)+$/`. -/
def domainRegexTest (s : String) : Bool :=
  match s.data with
  | [] => false
  | c :: cs => isAsciiAlnum c && domainStep .firstLabel cs

/-! ### The rule cascade of `extractDomain` (`src/sitemapParser.ts`)

Each early-returning block becomes a function returning
`Option (Option Domain)`: `none` means control falls through to the next
block, `some r` means the block returns `r` (`r = none` is JS `null`). -/

/-- Embedding of the `Domain` interface from `src/types.ts`. -/
structure Domain where
  full : String
  name : String
  deriving DecidableEq, Repr

/-- The marker vocabulary `knownSegments` from the source. -/
def knownSegments : List String :=
  ["promo-codes", "store", "coupons", "site", "coupon-codes", "s", "view"]

/-- The `capitaloneshopping.com` special case (first block). -/
def capitalOneRule (hostname : String) (parts : List String) : Option (Option Domain) :=
  if strIncludes hostname "capitaloneshopping.com" then
    match parts with
    | p0 :: p1 :: _ =>
      if p0 == "s" then
        if p1 == "all" || !hasDot p1 then some none
        else if hasDot p1 then some (some ⟨p1, p1⟩)
        else none
      else none
    | _ => none
  else none

/-- First priority: return the first path segment matching the domain
regular expression. -/
def domainScanRule : List String → Option Domain
  | [] => none
  | p :: rest => if domainRegexTest p then some ⟨p, p⟩ else domainScanRule rest

/-- Second priority: the first marker segment whose (truthy) successor
contains a dot; markers with a dot-less successor do not stop the scan. -/
def knownSegmentRuleAux (a : String) : List String → Option Domain
  | [] => none
  | b :: rest =>
    if knownSegments.contains a && (!b.isEmpty && hasDot b) then some ⟨b, b⟩
    else knownSegmentRuleAux b rest

def knownSegmentRule : List String → Option Domain
  | [] => none
  | a :: rest => knownSegmentRuleAux a rest

/-- The GoodSearch special case: after a `coupons` segment with a dot-less
successor, reject explicitly. JS `findIndex` signals "found" by a
non-negative result; `List.findIdx` signals it by a result below the
length, so `couponsIndex >= 0` becomes `findIdx … < parts.length`. -/
def goodsearchRule (hostname : String) (parts : List String) : Option (Option Domain) :=
  if strIncludes hostname "goodsearch.com" && parts.length > 1 then
    if parts.findIdx (fun p => p == "coupons") < parts.length &&
        parts.findIdx (fun p => p == "coupons") + 1 < parts.length then
      if !hasDot (parts.getD (parts.findIdx (fun p => p == "coupons") + 1) "") then
        some none
      else none
    else none
  else none

/-- Last resort: the hostname itself, only for a URL with no path segments. -/
def hostnameFallbackRule (hostname : String) (parts : List String) : Option Domain :=
  if hasDot hostname && parts.isEmpty then some ⟨hostname, stripWww hostname⟩
  else none

/-- The body of `extractDomain` after `new URL` succeeded, as the ordered
cascade of the source's early-returning blocks. -/
def extractDomainCore (hostname pathname : String) : Option Domain :=
  match capitalOneRule hostname (pathSegments pathname) with
  | some r => r
  | none =>
    match domainScanRule (pathSegments pathname) with
    | some d => some d
    | none =>
      match knownSegmentRule (pathSegments pathname) with
      | some d => some d
      | none =>
        match goodsearchRule hostname (pathSegments pathname) with
        | some r => r
        | none => hostnameFallbackRule hostname (pathSegments pathname)

/-- Hostname and pathname of a successfully parsed URL. -/
structure UrlParts where
  hostname : String
  pathname : String
  deriving DecidableEq, Repr

/-- Embedding of `extractDomain` from `src/sitemapParser.ts`. The WHATWG
`new URL` constructor is external to the repository and is modelled by a
parameter `parseUrl`, returning `none` exactly for the inputs on which the
constructor throws; the source's `try/catch` turns that case into a logged
`null` result. -/
def extractDomain (parseUrl : String → Option UrlParts) (url : String) : Option Domain :=
  match parseUrl url with
  | none => none
  | some u => extractDomainCore u.hostname u.pathname

/-- Embedding of the `SitemapUrl` interface from `src/types.ts`. -/
structure SitemapUrl where
  loc : String
  lastmod : Option String := none
  changefreq : Option String := none
  priority : Option String := none
  deriving DecidableEq, Repr

/-- Embedding of the `ParsedSitemap` interface from `src/types.ts`. -/
structure ParsedSitemap where
  sourceName : String
  urls : List SitemapUrl
  deriving DecidableEq, Repr

/-- Embedding of `extractDomainsFromSitemap` from `src/sitemapParser.ts`:
collect the `name` of every successfully extracted domain into a set;
rejected URLs only feed the log. -/
def extractDomainsFromSitemap (parseUrl : String → Option UrlParts)
    (sitemap : ParsedSitemap) : Finset String :=
  sitemap.urls.foldl
    (fun acc u =>
      match extractDomain parseUrl u.loc with
      | some d => insert d.name acc
      | none => acc) ∅

/-! ### The claims about the extractor cascade -/

/-- The known-segment-follows rule in the spec's own words: scan the
consecutive segment pairs in path order; the first pair made of a marker
word followed by a dot-containing segment yields that following segment. -/
def specFirstDottedSuccessor (parts : List String) : Option String :=
  (parts.zip parts.tail).findSome? fun p =>
    if knownSegments.contains p.1 && hasDot p.2 then some p.2 else none

theorem isEmpty_and_hasDot (b : String) : (!b.isEmpty && hasDot b) = hasDot b := by
  cases hb : b.isEmpty
  · simp
  · have : b = "" := (String.isEmpty_iff b).mp hb
    subst this
    rfl

theorem knownSegmentRuleAux_spec (a : String) (rest : List String) :
    knownSegmentRuleAux a rest =
      (((a :: rest).zip rest).findSome? fun p =>
        if knownSegments.contains p.1 && hasDot p.2 then some p.2 else none).map
        fun d => (⟨d, d⟩ : Domain) := by
  induction rest generalizing a with
  | nil => rfl
  | cons b rest ih =>
    rw [knownSegmentRuleAux, isEmpty_and_hasDot, List.zip_cons_cons, List.findSome?_cons]
    cases h : knownSegments.contains a && hasDot b
    · simpa [h] using ih b
    · simp [h]

theorem knownSegmentRule_eq_spec (parts : List String) :
    knownSegmentRule parts =
      (specFirstDottedSuccessor parts).map fun d => (⟨d, d⟩ : Domain) := by
  cases parts with
  | nil => rfl
  | cons a rest => exact knownSegmentRuleAux_spec a rest

/-- C3: the known-segment-follows rule tries the markers in path order and
returns the first marker's successor that contains a dot; a marker whose
successor has no dot does not stop the scan (iterate-all-markers). For a
URL on which neither of the two earlier blocks returns, the cascade's
answer is exactly that first dotted successor. -/
theorem knownSegment_scan_spec :
    (∀ parts : List String, knownSegmentRule parts =
      (specFirstDottedSuccessor parts).map fun d => (⟨d, d⟩ : Domain)) ∧
    (∀ hostname pathname : String,
      capitalOneRule hostname (pathSegments pathname) = none →
      domainScanRule (pathSegments pathname) = none →
      ∀ d : String, specFirstDottedSuccessor (pathSegments pathname) = some d →
        extractDomainCore hostname pathname = some ⟨d, d⟩) := by
  refine ⟨knownSegmentRule_eq_spec, fun hostname pathname h1 h2 d hd => ?_⟩
  simp [extractDomainCore, h1, h2, knownSegmentRule_eq_spec, hd]

theorem knownSegment_scan_spec_witness :
    extractDomainCore "catalog.test" "/s/nodot/view/-shoe.net" =
      some ⟨"-shoe.net", "-shoe.net"⟩ :=
  knownSegment_scan_spec.2 "catalog.test" "/s/nodot/view/-shoe.net"
    (by decide) (by decide) "-shoe.net" (by decide)

/-- C4: on a host containing `capitaloneshopping.com` with a path whose
segments start `s, seg, …`, the cascade answers from the first block
alone: it rejects when `seg` is `all` or has no dot, and returns
`⟨seg, seg⟩` otherwise — pre-empting every later rule. -/
theorem capitalOne_preempts (hostname pathname seg : String) (rest : List String)
    (hhost : strIncludes hostname "capitaloneshopping.com")
    (hpath : pathSegments pathname = "s" :: seg :: rest) :
    extractDomainCore hostname pathname =
      if seg == "all" || !hasDot seg then none else some ⟨seg, seg⟩ := by
  by_cases h : (seg == "all" || !hasDot seg) = true
  · simp [extractDomainCore, capitalOneRule, hpath, hhost, h]
  · have hf : (seg == "all" || !hasDot seg) = false := by simpa using h
    rcases Bool.or_eq_false_iff.mp hf with ⟨hall, hnd⟩
    have hdot : hasDot seg = true := by simpa using hnd
    have hne : seg ≠ "all" := by simpa using hall
    simp [extractDomainCore, capitalOneRule, hpath, hhost, h, hdot, hne]

theorem capitalOne_preempts_witness :
    extractDomainCore "www.capitaloneshopping.com" "/s/all" = none :=
  (capitalOne_preempts "www.capitaloneshopping.com" "/s/all" "all" []
    (by decide) (by decide)).trans (by decide)

theorem goodsearchRule_cases (hostname : String) (parts : List String) :
    goodsearchRule hostname parts = none ∨ goodsearchRule hostname parts = some none := by
  unfold goodsearchRule
  split_ifs <;> simp

/-- C5: the hostname fallback fires only for a URL with zero path segments
and a dotted hostname, returning the raw hostname as `full` and the
`www.`-stripped hostname as `name`; with a non-empty path on which no
earlier block produced a domain, the cascade rejects. -/
theorem hostnameFallback_spec :
    (∀ hostname pathname : String, pathSegments pathname = [] →
      extractDomainCore hostname pathname =
        if hasDot hostname then some ⟨hostname, stripWww hostname⟩ else none) ∧
    (∀ hostname pathname : String, pathSegments pathname ≠ [] →
      (capitalOneRule hostname (pathSegments pathname) = none ∨
        capitalOneRule hostname (pathSegments pathname) = some none) →
      domainScanRule (pathSegments pathname) = none →
      knownSegmentRule (pathSegments pathname) = none →
      extractDomainCore hostname pathname = none) := by
  constructor
  · intro hostname pathname hp
    cases hinc : strIncludes hostname "capitaloneshopping.com" <;>
      simp [extractDomainCore, capitalOneRule, goodsearchRule, hostnameFallbackRule,
        domainScanRule, knownSegmentRule, hp, hinc]
  · intro hostname pathname hp h1 h2 h3
    have hfb : hostnameFallbackRule hostname (pathSegments pathname) = none := by
      unfold hostnameFallbackRule
      rw [if_neg]
      simp [List.isEmpty_iff, hp]
    rcases goodsearchRule_cases hostname (pathSegments pathname) with hg | hg <;>
      rcases h1 with h1 | h1 <;>
        simp [extractDomainCore, h1, h2, h3, hg, hfb]

theorem hostnameFallback_spec_witness :
    extractDomainCore "www.flatsite.com" "/" =
        some ⟨"www.flatsite.com", "flatsite.com"⟩ ∧
    extractDomainCore "example.com" "/about" = none :=
  ⟨(hostnameFallback_spec.1 "www.flatsite.com" "/" (by decide)).trans (by decide),
   hostnameFallback_spec.2 "example.com" "/about" (by decide) (Or.inl (by decide))
     (by decide) (by decide)⟩

/-- C7: `extractDomain` is total (the embedding of its `try/catch` is a
total function): a URL on which the external URL parser fails is a
rejected (`none`) outcome, and such a URL contributes nothing to the
domain set built by `extractDomainsFromSitemap`. -/
theorem extractDomain_rejects_malformed (parseUrl : String → Option UrlParts) :
    (∀ url : String, parseUrl url = none → extractDomain parseUrl url = none) ∧
    (∀ (sourceName : String) (u : SitemapUrl) (urls : List SitemapUrl),
      parseUrl u.loc = none →
      extractDomainsFromSitemap parseUrl ⟨sourceName, u :: urls⟩ =
        extractDomainsFromSitemap parseUrl ⟨sourceName, urls⟩) := by
  constructor
  · intro url h
    simp [extractDomain, h]
  · intro s u urls h
    simp [extractDomainsFromSitemap, extractDomain, h]

theorem extractDomain_rejects_malformed_witness :
    extractDomain (fun _ => none) "not a url" = none ∧
    extractDomainsFromSitemap (fun _ => none)
        ⟨"src", [⟨"not a url", none, none, none⟩]⟩ =
      extractDomainsFromSitemap (fun _ => none) ⟨"src", []⟩ :=
  ⟨(extractDomain_rejects_malformed _).1 "not a url" rfl,
   (extractDomain_rejects_malformed _).2 "src" ⟨"not a url", none, none, none⟩ [] rfl⟩

/-! ### The sitemap document model (`parseSitemapFile`)

`xml2js(content, { compact: true })` produces a JS value built from
objects (element and attribute maps, with `_text` holding a node's text as
a string), arrays (repeated elements) and strings. `Array.isArray`
distinguishes arrays; objects and arrays both have `typeof "object"` and
are truthy; a string is truthy iff non-empty. Objects and arrays are
spelled as their own cons-chains so that every recursion below is
structural. -/

mutual
inductive XVal where
  | obj (fields : XFields)
  | arr (items : XItems)
  | str (s : String)
inductive XFields where
  | nil
  | cons (key : String) (value : XVal) (rest : XFields)
inductive XItems where
  | nil
  | cons (value : XVal) (rest : XItems)
end

def getFieldAux : XFields → String → Option XVal
  | .nil, _ => none
  | .cons key v rest, k => if key == k then some v else getFieldAux rest k

/-- JS property access `v[k]` for the keys used here: `undefined` (`none`)
on strings and arrays. -/
def getField : XVal → String → Option XVal
  | .obj fields, k => getFieldAux fields k
  | _, _ => none

/-- JS truthiness of the values in this model. -/
def truthy : XVal → Bool
  | .obj _ => true
  | .arr _ => true
  | .str s => !s.isEmpty

def truthyOpt : Option XVal → Bool
  | some v => truthy v
  | none => false

/-- `typeof v === "object"`. -/
def isObjType : XVal → Bool
  | .str _ => false
  | _ => true

/-- `entry.k?._text`: optional chaining, then the node text (a string in
compact `xml-js` output). -/
def textOf (v : XVal) (k : String) : Option String :=
  match getField v k with
  | some u =>
    match getField u "_text" with
    | some (.str s) => some s
    | _ => none
  | none => none

/-- `Array.isArray(x) ? x : [x]`. -/
def itemsToList : XItems → List XVal
  | .nil => []
  | .cons v rest => v :: itemsToList rest

def entryList : XVal → List XVal
  | .arr items => itemsToList items
  | v => [v]

/-- One mapped entry of the structured branches:
`{ loc: entry.loc?._text || "", lastmod: entry.lastmod?._text, … }`. -/
def urlOfEntry (entry : XVal) : SitemapUrl :=
  { loc := (textOf entry "loc").getD ""
    lastmod := textOf entry "lastmod"
    changefreq := textOf entry "changefreq"
    priority := textOf entry "priority" }

/-- The guard `result.k && result.k.url` of the two structured branches. -/
def shapeGuard (result : XVal) (rootKey : String) : Bool :=
  match getField result rootKey with
  | some root => truthy root && truthyOpt (getField root "url")
  | none => false

/-- The URL list a structured branch computes: map the `url` entries and
keep those with a truthy `loc`. -/
def shapeUrls (result : XVal) (rootKey : String) : List SitemapUrl :=
  match getField result rootKey with
  | some root =>
    match getField root "url" with
    | some url => ((entryList url).map urlOfEntry).filter fun u => !u.loc.isEmpty
    | none => []
  | none => []

/-- Shape (a): the standard `urlset > url` structure. -/
def shapeAUrls (result : XVal) : List SitemapUrl := shapeUrls result "urlset"

/-- Shape (b): the non-standard root element `xml > url`. -/
def shapeBUrls (result : XVal) : List SitemapUrl := shapeUrls result "xml"

/-- The push condition of `findUrls`: `obj.loc && obj.loc._text`, both
truthy; yields the text. -/
def locText (v : XVal) : Option String :=
  match getField v "loc" with
  | some l =>
    if truthy l then
      match getField l "_text" with
      | some (.str s) => if !s.isEmpty then some s else none
      | _ => none
    else none
  | none => none

mutual
/-- Shape (c): the `findUrls` recursion of `parseSitemapFile` — push the
current node's `loc._text` URL, then recurse (in key order) into every
child of object type. -/
def findUrlsV : XVal → List SitemapUrl
  | .obj fields =>
    (match locText (.obj fields) with
     | some s =>
       [{ loc := s, lastmod := textOf (.obj fields) "lastmod",
          changefreq := textOf (.obj fields) "changefreq",
          priority := textOf (.obj fields) "priority" }]
     | none => []) ++ findUrlsF fields
  | .arr items => findUrlsI items
  | .str _ => []
def findUrlsF : XFields → List SitemapUrl
  | .nil => []
  | .cons _ v rest => (if isObjType v then findUrlsV v else []) ++ findUrlsF rest
def findUrlsI : XItems → List SitemapUrl
  | .nil => []
  | .cons v rest => (if isObjType v then findUrlsV v else []) ++ findUrlsI rest
end

/-! ### The regex fallback `/(https?:\/\/[^\s<>"']+)/g` -/

/-- The ECMAScript `\s` class: space, tab, LF, VT, FF, CR, NBSP, Ogham
space mark, U+2000 through U+200A, LS, PS, NNBSP, MMSP, ideographic space
and the BOM. -/
def isJsSpace (c : Char) : Bool :=
  c == ' ' || c == '\t' || c == '\n' || c == '\r' || c == '\x0b' || c == '\x0c' ||
  c == '\u00A0' || c == '\u1680' || ('\u2000' ≤ c && c ≤ '\u200A') ||
  c == '\u2028' || c == '\u2029' || c == '\u202F' || c == '\u205F' ||
  c == '\u3000' || c == '\uFEFF'

/-- The `[^\s<>"']` class. -/
def isUrlChar (c : Char) : Bool :=
  !(isJsSpace c || c == '<' || c == '>' || c == '"' || c == '\'')

/-- Try the pattern anchored at the start of `l`; return the matched run.
Backtracking from the optional `s` cannot succeed (`s ≠ :`), so trying the
longer scheme first is exact. -/
def matchUrlAt (l : List Char) : Option (List Char) :=
  if startsWithChars "https://".data l then
    if ((l.drop 8).takeWhile isUrlChar).isEmpty then none
    else some ("https://".data ++ (l.drop 8).takeWhile isUrlChar)
  else if startsWithChars "http://".data l then
    if ((l.drop 7).takeWhile isUrlChar).isEmpty then none
    else some ("http://".data ++ (l.drop 7).takeWhile isUrlChar)
  else none

/-- Global scan: leftmost match, continue after its end, else advance one
character. The fuel starts at the text length and decreases by one per
step while each step consumes at least one character, so it never runs
out. -/
def scanUrlsFuel : Nat → List Char → List (List Char)
  | 0, _ => []
  | _ + 1, [] => []
  | n + 1, c :: cs =>
    match matchUrlAt (c :: cs) with
    | some m => m :: scanUrlsFuel n ((c :: cs).drop m.length)
    | none => scanUrlsFuel n cs

/-- `content.match(/(https?:\/\/[^\s<>"']+)/g)` (the empty list standing
for JS `null`). -/
def scanUrls (l : List Char) : List (List Char) := scanUrlsFuel l.length l

/-- The fallback's result: each match as a bare location, no metadata. -/
def regexFallbackUrls (content : String) : List SitemapUrl :=
  (scanUrls content.data).map fun m => { loc := (⟨m⟩ : String) }

/-- The URL-list computation of `parseSitemapFile` once `xml2js` has
produced `result` from the raw text `content`. -/
def parseSitemapUrls (result : XVal) (content : String) : List SitemapUrl :=
  if shapeGuard result "urlset" then shapeAUrls result
  else if shapeGuard result "xml" then shapeBUrls result
  else
    if (findUrlsV result).isEmpty then regexFallbackUrls content
    else findUrlsV result

/-- Embedding of `parseSitemapFile` from `src/sitemapParser.ts`. The file
read and the `xml2js` call are external; their joint outcome is the
parameter — `.error` when either throws, `.ok (result, content)`
otherwise. The source's `catch` returns the source name with an empty URL
list. -/
def parseSitemapFile (parsed : Except String (XVal × String))
    (sourceName : String) : ParsedSitemap :=
  match parsed with
  | .error _ => { sourceName := sourceName, urls := [] }
  | .ok rc => { sourceName := sourceName, urls := parseSitemapUrls rc.1 rc.2 }

/-- Embedding of the `processDirectory` loop from `src/sitemapParser.ts`:
every discovered file, represented by its read/parse outcome and its base
name, contributes its extracted domains to one merged set. -/
def processDirectory (parseUrl : String → Option UrlParts)
    (files : List (Except String (XVal × String) × String)) : Finset String :=
  files.foldl
    (fun acc f => acc ∪ extractDomainsFromSitemap parseUrl (parseSitemapFile f.1 f.2)) ∅

/-! ### The claims about `parseSitemapFile` -/

/-- The compact parse of `exContent`: a `urlset` whose only `url` entry
has an empty `loc` element, next to a `note` element whose text contains
an `https://` run. Shape (a)'s guard holds, yet every shape yields zero
URLs. -/
def exDoc : XVal :=
  .obj (.cons "urlset"
    (.obj (.cons "url" (.obj (.cons "loc" (.obj .nil) .nil))
      (.cons "note" (.obj (.cons "_text" (.str "see https://x.com") .nil)) .nil)))
    .nil)

/-- The raw text `exDoc` was parsed from. -/
def exContent : String :=
  "<urlset><url><loc></loc></url><note>see https://x.com</note></urlset>"

/-- C6 as stated fails on this document: shapes (a), (b) and (c) all yield
zero URLs and the raw text does contain an `http(s)://` run, yet the code
returns no URLs — the regex fallback is gated on the structural guards of
(a) and (b) being false, not on their branches yielding zero URLs. -/
theorem parseSitemap_fallback_counterexample :
    shapeAUrls exDoc = [] ∧ shapeBUrls exDoc = [] ∧ findUrlsV exDoc = [] ∧
    regexFallbackUrls exContent = [{ loc := "https://x.com" }] ∧
    parseSitemapUrls exDoc exContent = [] := by
  refine ⟨by decide, by decide, by decide, by decide, by decide⟩

/-- C6 amended: the regex fallback fires exactly when neither shape (a)'s
nor shape (b)'s structural guard holds and the recursive loc-search (c)
yields zero URLs; each match of the raw-text scan then becomes a bare
location with no metadata. -/
theorem parseSitemap_fallback (result : XVal) (content : String)
    (ha : shapeGuard result "urlset" = false)
    (hb : shapeGuard result "xml" = false)
    (hc : findUrlsV result = []) :
    parseSitemapUrls result content = regexFallbackUrls content := by
  simp [parseSitemapUrls, ha, hb, hc]

theorem parseSitemap_fallback_witness :
    parseSitemapUrls (.obj .nil) exContent = [{ loc := "https://x.com" }] :=
  (parseSitemap_fallback (.obj .nil) exContent (by decide) (by decide)
    (by decide)).trans (by decide)

/-- C8: `parseSitemapFile` on a file whose read or XML parse fails does
not raise (the embedding is total): it returns the given source label with
an empty URL list, and such a file contributes nothing to a directory
batch, which continues with the remaining files. -/
theorem parseSitemapFile_error_empty :
    (∀ e sourceName : String,
      parseSitemapFile (.error e) sourceName =
        { sourceName := sourceName, urls := [] }) ∧
    (∀ (parseUrl : String → Option UrlParts) (e name : String)
        (rest : List (Except String (XVal × String) × String)),
      processDirectory parseUrl ((.error e, name) :: rest) =
        processDirectory parseUrl rest) := by
  refine ⟨fun e s => rfl, fun parseUrl e name rest => ?_⟩
  simp [processDirectory, parseSitemapFile, extractDomainsFromSitemap]

theorem parseSitemapFile_error_empty_witness :
    parseSitemapFile (.error "XML parse error") "competitorA" =
        { sourceName := "competitorA", urls := [] } ∧
    processDirectory (fun _ => none)
        [(.error "XML parse error", "competitorA"), (.ok (exDoc, exContent), "b")] =
      processDirectory (fun _ => none) [(.ok (exDoc, exContent), "b")] :=
  ⟨parseSitemapFile_error_empty.1 "XML parse error" "competitorA",
   parseSitemapFile_error_empty.2 (fun _ => none) "XML parse error" "competitorA"
     [(.ok (exDoc, exContent), "b")]⟩

end MerchantComparison
